import Mathlib

/-!
Shallow embedding of the Chord DHT node from this repository
(`src/utils.py`, `src/chord.py`, `src/node.py`): the circular-interval
predicate, the routing operations, the protocol engine's message handlers,
the stabilization routine and graceful departure.

Network effects are made explicit: a handler returns the updated node state
together with the list of datagrams it sends.  Synchronous RPC results
(`Chord.rpc_find_successor`), peer liveness pings and the SHA-1 hash are
modelled as oracle functions passed in as parameters.
-/

namespace ChordDHT

/-- A peer descriptor: the `{ip, port, id}` dictionary used throughout the
source. -/
structure Peer where
  ip : String
  port : Nat
  id : Nat
deriving Repr, DecidableEq

/-- Embedding of `utils.in_range(x, start, end, include_end)`.  The Python
parameter `end` is renamed `stop` because `end` is a Lean keyword. -/
def in_range (x start stop : Nat) (include_end : Bool) : Bool :=
  if start < stop then
    if include_end then decide (start < x) && decide (x ≤ stop)
    else decide (start < x) && decide (x < stop)
  else
    if include_end then decide (x > start) || decide (x ≤ stop)
    else decide (x > start) || decide (x < stop)

/-- The wire messages of §6, as a tagged variant.  The Python source
dispatches on the leading token of a whitespace-separated datagram; each
constructor corresponds to one command token with its parsed arguments. -/
inductive Msg where
  | find_successor (target : Nat)
  | successor (p : Peer)
  | notify (id : Nat)
  | get_predecessor
  | predecessor (p : Option Peer)
  | get_successor_list
  | successor_list (entries : List Peer)
  | update_predecessor_to (p : Peer)
  | update_successor_to (p : Peer)
  | update_finger (p : Peer) (i : Nat)
  | store (key value : String)
  | replicate (key value : String)
  | lookup (key : String)
  | result (key value : String)
  | ping
  | pong
deriving Repr, DecidableEq

/-- A network address `(ip, port)`, as Python's `addr` pair. -/
abbrev Addr := String × Nat

/-- One outgoing datagram: destination address and message. -/
abbrev Packet := Addr × Msg

def Peer.addr (p : Peer) : Addr := (p.ip, p.port)

/-- The mutable state of `Node` (plus the `Chord` helper's `m` and
`finger_table`, which live on `self.chord` in the source).  The node id is
`hash_function(ip:port)` in the source; here it is stored directly.
`last_predecessor_heartbeat` holds an abstract clock value. -/
structure NodeState where
  ip : String
  port : Nat
  id : Nat
  m : Nat
  r : Nat
  successor : Peer
  predecessor : Option Peer
  temp_predecessor : Option Peer
  finger_table : List (Option Peer)
  successor_list : List Peer
  data_store : List (String × String)
  replica_store : List (String × String)
  last_predecessor_heartbeat : Nat
deriving Repr, DecidableEq

/-- The node's own descriptor, `{self.ip, self.port, self.id}`. -/
def NodeState.selfPeer (n : NodeState) : Peer := ⟨n.ip, n.port, n.id⟩

/-- Python dict read: first binding for the key, if any. -/
def kvGet : List (String × String) → String → Option String
  | [], _ => none
  | kv :: tl, k => if kv.1 = k then some kv.2 else kvGet tl k

/-- Python dict write: replace the binding in place, or append a new one. -/
def kvSet : List (String × String) → String → String → List (String × String)
  | [], k, v => [(k, v)]
  | kv :: tl, k, v => if kv.1 = k then (k, v) :: tl else kv :: kvSet tl k v

/-- The body of the loop in `Chord.closest_preceding_node`: traverse the
finger table in reverse order and return the first entry that is non-null
and whose id is in the open circular interval `(self.id, target)`. -/
def cpn_scan (selfId target : Nat) : List (Option Peer) → Option Peer
  | [] => none
  | f :: rest =>
    match f with
    | some p =>
        if in_range p.id selfId target false then some p
        else cpn_scan selfId target rest
    | none => cpn_scan selfId target rest

/-- Embedding of `Chord.closest_preceding_node(id)`: scan
`reversed(self.finger_table)` and return the first qualifying finger, or
`None` when no finger qualifies. -/
def closest_preceding_node (n : NodeState) (target : Nat) : Option Peer :=
  cpn_scan n.id target n.finger_table.reverse

/-- Embedding of `Chord.find_successor(id)`.  The synchronous
`Chord.rpc_find_successor` call is the oracle `rpc candidate id`, which
returns the `SUCCESSOR` reply or `none` on transport failure or timeout. -/
def find_successor (n : NodeState) (rpc : Peer → Nat → Option Peer)
    (target : Nat) : Peer :=
  if n.id = n.successor.id then n.successor
  else if in_range target n.id n.successor.id true then n.successor
  else
    let candidate :=
      match closest_preceding_node n target with
      | some c => c
      | none => n.successor
    match rpc candidate target with
    | some succ => succ
    | none => candidate

/-- One iteration of the loop in `Chord.update_finger_table`: set
`finger_table[i]` to a fresh copy of `find_successor((id + 2^i) mod 2^m)`.
(`find_successor` never returns `None` in the embedding, so the source's
`else: finger_table[i] = None` branch cannot fire.) -/
def uft_step (rpc : Peer → Nat → Option Peer) (st : NodeState) (i : Nat) :
    NodeState :=
  let succ := find_successor st rpc ((st.id + 2 ^ i) % 2 ^ st.m)
  { st with finger_table :=
      st.finger_table.set i (some ⟨succ.ip, succ.port, succ.id⟩) }

/-- Embedding of `Chord.update_finger_table()`: refresh every entry in
index order.  Later iterations see the entries written by earlier ones,
exactly as the imperative loop does. -/
def update_finger_table (n : NodeState) (rpc : Peer → Nat → Option Peer) :
    NodeState :=
  (List.range n.m).foldl (uft_step rpc) n

/-- Modelled from the spec: `Chord.prune_successor_list` is called by
`Node.node_stabilize` and the GET_SUCCESSOR_LIST handler, but the method is
not defined in `src/chord.py`.  Spec §4.4 item 4: ping each non-self entry
and keep only responders (the `alive` oracle); if nothing remains, rebuild
to `[self]`. -/
def prune_successor_list (n : NodeState) (alive : Peer → Bool) : List Peer :=
  let kept := n.successor_list.filter (fun p => p.id == n.id || alive p)
  if kept.isEmpty then [n.selfPeer] else kept

/-- The SUCCESSOR_LIST handler's rebuild loop: start from
`[self.successor]` and append each received entry whose id differs from
`self.id` while the list is shorter than `r`. -/
def rebuild_successor_list (n : NodeState) (entries : List Peer) :
    List Peer :=
  entries.foldl
    (fun acc e => if e.id ≠ n.id ∧ acc.length < n.r then acc ++ [e] else acc)
    [n.successor]

/-- Embedding of `Node.handle_message(message, addr)`.  Oracles: `rpc` for
`rpc_find_successor`, `alive` for the liveness pings of the (spec-modelled)
successor-list pruning, `hashf` for `utils.hash_function`, `now` for
`time.time()`.  Returns the updated state and the datagrams sent.  The
source's `if/elif` chain has no branch for `UPDATE_FINGER` and no final
`else`, so that message (and only that one) falls through with no effect. -/
def handle_message (n : NodeState) (rpc : Peer → Nat → Option Peer)
    (alive : Peer → Bool) (hashf : String → Nat) (now : Nat)
    (sender : Addr) (msg : Msg) : NodeState × List Packet :=
  match msg with
  | .find_successor target =>
      let s := find_successor n rpc target
      (n, [(sender, .successor s)])
  | .successor p =>
      let sl :=
        match n.successor_list with
        | [] => [p]
        | _ :: tl => p :: tl
      let n1 := { n with successor := p, successor_list := sl }
      let n2 := update_finger_table n1 rpc
      (n2, [(p.addr, .notify n.id)])
  | .notify pid =>
      match n.predecessor with
      | none => ({ n with predecessor := some ⟨sender.1, sender.2, pid⟩ }, [])
      | some pr =>
          if in_range pid pr.id n.id false then
            ({ n with predecessor := some ⟨sender.1, sender.2, pid⟩ }, [])
          else (n, [])
  | .get_predecessor => (n, [(sender, .predecessor n.predecessor)])
  | .predecessor p => ({ n with temp_predecessor := p }, [])
  | .get_successor_list =>
      let pruned := prune_successor_list n alive
      ({ n with successor_list := pruned },
       [(sender, .successor_list pruned)])
  | .successor_list entries =>
      if entries.isEmpty then (n, [])
      else ({ n with successor_list := rebuild_successor_list n entries }, [])
  | .update_predecessor_to p => ({ n with predecessor := some p }, [])
  | .update_successor_to p =>
      let sl :=
        match n.successor_list with
        | [] => []
        | _ :: tl => p :: tl
      ({ n with successor := p, successor_list := sl }, [])
  | .store key value =>
      let s := find_successor n rpc (hashf key)
      if s.id = n.id then
        ({ n with data_store := kvSet n.data_store key value },
         (n.successor_list.drop 1).map
           (fun t => (t.addr, Msg.replicate key value)))
      else (n, [(s.addr, .store key value)])
  | .replicate key value =>
      ({ n with replica_store := kvSet n.replica_store key value }, [])
  | .lookup key =>
      let s := find_successor n rpc (hashf key)
      if s.id = n.id then
        let v :=
          match kvGet n.data_store key with
          | some v => v
          | none =>
            match kvGet n.replica_store key with
            | some v => v
            | none => "NOT_FOUND"
        (n, [(sender, .result key v)])
      else (n, [(s.addr, .lookup key)])
  | .ping =>
      let n1 :=
        match n.predecessor with
        | some pr =>
            if sender = pr.addr then
              { n with last_predecessor_heartbeat := now }
            else n
        | none => n
      (n1, [(sender, .pong)])
  | .pong =>
      match n.predecessor with
      | some pr =>
          if sender = pr.addr then
            ({ n with last_predecessor_heartbeat := now }, [])
          else (n, [])
      | none => (n, [])
  | .result _ _ => (n, [])
  | .update_finger _ _ => (n, [])

/-- Embedding of `Chord.stabilize()`.  `reply` models the outcome of the
GET_PREDECESSOR round trip on the temporary socket: `none` when the send or
receive raised (timeout, unreachable peer), `some none` for a
`PREDECESSOR NONE` reply, `some (some x)` for `PREDECESSOR ip port id`.  In
all cases a NOTIFY carrying `self.id` is then sent to the (possibly
updated) successor. -/
def stabilize (n : NodeState) (reply : Option (Option Peer)) :
    NodeState × List Packet :=
  let n1 :=
    match reply with
    | some (some pred) =>
        if in_range pred.id n.id n.successor.id false then
          { n with successor := pred }
        else n
    | _ => n
  (n1, [(n.successor.addr, .get_predecessor),
        (n1.successor.addr, .notify n.id)])

/-- Embedding of `Chord.update_finger_table_entry(new_node_info, i)`: update
`finger_table[i]` when the entry is `None` or the new node's id lies in the
open interval `(self.id, finger_table[i].id)`, and on an update forward the
same UPDATE_FINGER to the predecessor when it exists and has a different id.
(Dead code in the source: no dispatcher branch ever calls it.) -/
def update_finger_table_entry (n : NodeState) (new_node : Peer) (i : Nat) :
    NodeState × List Packet :=
  let qualifies :=
    match n.finger_table.getD i none with
    | none => true
    | some ft => in_range new_node.id n.id ft.id false
  if qualifies then
    let n1 := { n with finger_table := n.finger_table.set i (some new_node) }
    match n.predecessor with
    | some pr =>
        if pr.id ≠ new_node.id then
          (n1, [(pr.addr, .update_finger new_node i)])
        else (n1, [])
    | none => (n1, [])
  else (n, [])

/-- Result of `Node.leave()`: the datagrams sent before returning or
raising, whether `stop_event.set()` ran, whether `sock.close()` ran, and
the uncaught exception if one was raised. -/
structure LeaveResult where
  outbox : List Packet
  stopped : Bool
  closed : Bool
  error : Option String
deriving Repr, DecidableEq

/-- Embedding of `Node.leave()`.  When the successor is a distinct peer the
source first sends every primary and replica entry to the successor, then
formats `UPDATE_PREDECESSOR_TO {self.predecessor[...]}`; with a null
predecessor that subscript raises `TypeError`, which propagates out of
`leave` before the stop event is set or the socket closed. -/
def leave (n : NodeState) : LeaveResult :=
  if n.successor.id ≠ n.id then
    let transfers :=
      n.data_store.map (fun kv => (n.successor.addr, Msg.store kv.1 kv.2))
      ++ n.replica_store.map
          (fun kv => (n.successor.addr, Msg.replicate kv.1 kv.2))
    match n.predecessor with
    | none =>
        { outbox := transfers, stopped := false, closed := false,
          error := some ("TypeError: NoneType object is not subscriptable") }
    | some p =>
        let out1 :=
          transfers ++ [(n.successor.addr, Msg.update_predecessor_to p)]
        let out2 :=
          if p.id ≠ n.id then
            out1 ++ [(p.addr, Msg.update_successor_to n.successor)]
          else out1
        { outbox := out2, stopped := true, closed := true, error := none }
  else
    match n.predecessor with
    | some p =>
        if p.id ≠ n.id then
          { outbox := [(p.addr, Msg.update_successor_to n.successor)],
            stopped := true, closed := true, error := none }
        else { outbox := [], stopped := true, closed := true, error := none }
    | none => { outbox := [], stopped := true, closed := true, error := none }

/-- True exactly for the two neighbor-update messages sent by `leave`. -/
def Msg.isNeighborUpdate : Msg → Bool
  | .update_predecessor_to _ => true
  | .update_successor_to _ => true
  | _ => false

/-- Embedding of `Node.__init__(ip, port, r)` together with
`Chord.__init__`: self-looped successor, null predecessor, empty stores,
successor list `[self.successor]`, finger table of `m` null entries.  The
id `hash_function(ip:port)` is passed in as `idv`. -/
def node_init (ip : String) (port : Nat) (idv m r : Nat) : NodeState :=
  { ip := ip, port := port, id := idv, m := m, r := r,
    successor := ⟨ip, port, idv⟩, predecessor := none,
    temp_predecessor := none, finger_table := List.replicate m none,
    successor_list := [⟨ip, port, idv⟩], data_store := [],
    replica_store := [], last_predecessor_heartbeat := 0 }

/-! Concrete states used by witnesses and counterexamples. -/

/-- A trivially failing RPC oracle. -/
def rpcNone : Peer → Nat → Option Peer := fun _ _ => none

/-- A liveness oracle under which every peer responds. -/
def aliveAll : Peer → Bool := fun _ => true

/-- A constant hash oracle. -/
def hash0 : String → Nat := fun _ => 0

def peerB : Peer := ⟨"127.0.0.1", 5001, 20⟩

def peerX : Peer := ⟨"127.0.0.1", 5002, 15⟩

/-- An RPC oracle that always answers with `peerB`. -/
def rpcPeerB : Peer → Nat → Option Peer := fun _ _ => some peerB

/-- A node with id 10 whose successor is `peerB` and whose finger table is
still empty. -/
def nodeAB : NodeState :=
  { ip := "127.0.0.1", port := 5000, id := 10, m := 3, r := 3,
    successor := peerB, predecessor := none, temp_predecessor := none,
    finger_table := [none, none, none], successor_list := [peerB],
    data_store := [], replica_store := [], last_predecessor_heartbeat := 0 }

/-- Like `nodeAB` but with one qualifying finger table entry, `peerX`. -/
def nodeF : NodeState :=
  { nodeAB with finger_table := [some peerX, none, none] }

/-- A node that owns every key (it is alone on the ring) and has two
further successor-list entries to replicate to. -/
def nodeOwner : NodeState :=
  { ip := "127.0.0.1", port := 5000, id := 10, m := 3, r := 3,
    successor := ⟨"127.0.0.1", 5000, 10⟩, predecessor := none,
    temp_predecessor := none, finger_table := [none, none, none],
    successor_list := [⟨"127.0.0.1", 5000, 10⟩, peerB, peerX],
    data_store := [], replica_store := [], last_predecessor_heartbeat := 0 }

/-- Like `nodeAB` but holding one primary key, used to exercise `leave`. -/
def nodeData : NodeState :=
  { nodeAB with data_store := [("k", "v")] }

/-- A collapsed node: its successor is itself while a distinct predecessor
`peerB` is recorded. -/
def nodeCollapsed : NodeState :=
  { ip := "127.0.0.1", port := 5000, id := 10, m := 3, r := 3,
    successor := ⟨"127.0.0.1", 5000, 10⟩, predecessor := some peerB,
    temp_predecessor := none, finger_table := [none, none, none],
    successor_list := [⟨"127.0.0.1", 5000, 10⟩], data_store := [],
    replica_store := [], last_predecessor_heartbeat := 0 }

end ChordDHT

namespace ChordDHT

/-- C9: for all x, start, end in the id space, `in_range` is `start < x < end`
(resp. `start < x ≤ end` with `include_end`) when `start < end`, and
`x > start ∨ x < end` (resp. `x > start ∨ x ≤ end`) when `start ≥ end`. -/
theorem in_range_spec (m x s e : Nat) (hx : x < 2 ^ m) (hs : s < 2 ^ m)
    (he : e < 2 ^ m) :
    (s < e →
       ((in_range x s e false = true ↔ s < x ∧ x < e)
        ∧ (in_range x s e true = true ↔ s < x ∧ x ≤ e)))
  ∧ (e ≤ s →
       ((in_range x s e false = true ↔ x > s ∨ x < e)
        ∧ (in_range x s e true = true ↔ x > s ∨ x ≤ e))) := by
  constructor
  · intro h
    simp [in_range, h]
  · intro h
    have h2 : ¬ s < e := Nat.not_lt.mpr h
    simp [in_range, h2]

/-- Witness for C9 at concrete inputs covering one non-wrapping and one
wrapping instance. -/
theorem in_range_spec_witness :
    (in_range 5 3 7 false = true ↔ 3 < 5 ∧ 5 < 7)
    ∧ (in_range 1 200 3 true = true ↔ 1 > 200 ∨ 1 ≤ 3) := by
  constructor
  · exact ((in_range_spec 8 5 3 7 (by decide) (by decide) (by decide)).1
      (by decide)).1
  · exact ((in_range_spec 8 1 200 3 (by decide) (by decide) (by decide)).2
      (by decide)).2

/-- Helper: the finger-table refresh loop touches only `finger_table`. -/
theorem uft_foldl_preserves (rpc : Peer → Nat → Option Peer)
    (l : List Nat) : ∀ st : NodeState,
    (l.foldl (uft_step rpc) st).successor = st.successor
    ∧ (l.foldl (uft_step rpc) st).successor_list = st.successor_list := by
  induction l with
  | nil => intro st; exact ⟨rfl, rfl⟩
  | cons i tl ih =>
      intro st
      have h := ih (uft_step rpc st i)
      simpa [uft_step] using h

/-- Helper: `Chord.update_finger_table` leaves the successor pointer and the
successor list unchanged. -/
theorem update_finger_table_preserves (n : NodeState)
    (rpc : Peer → Nat → Option Peer) :
    (update_finger_table n rpc).successor = n.successor
    ∧ (update_finger_table n rpc).successor_list = n.successor_list :=
  uft_foldl_preserves rpc (List.range n.m) n

/-- Helper: the SUCCESSOR_LIST rebuild loop never drops the head of its
accumulator. -/
theorem rebuild_foldl_head (n : NodeState) (l : List Peer) :
    ∀ acc : List Peer, acc ≠ [] →
    (l.foldl
        (fun acc e =>
          if e.id ≠ n.id ∧ acc.length < n.r then acc ++ [e] else acc)
        acc).head? = acc.head?
    ∧ (l.foldl
        (fun acc e =>
          if e.id ≠ n.id ∧ acc.length < n.r then acc ++ [e] else acc)
        acc) ≠ [] := by
  induction l with
  | nil => intro acc hacc; exact ⟨rfl, hacc⟩
  | cons e tl ih =>
      intro acc hacc
      by_cases hc : e.id ≠ n.id ∧ acc.length < n.r
      · have hne : acc ++ [e] ≠ [] := by
          intro h
          exact hacc (List.append_eq_nil.mp h).1
        have hh : (acc ++ [e]).head? = acc.head? := by
          cases acc with
          | nil => exact absurd rfl hacc
          | cons a as => rfl
        have h := ih (acc ++ [e]) hne
        simp only [List.foldl_cons, if_pos hc]
        exact ⟨h.1.trans hh, h.2⟩
      · have h := ih acc hacc
        simp only [List.foldl_cons, if_neg hc]
        exact h

/-- Helper: the rebuilt successor list starts with the current successor. -/
theorem rebuild_successor_list_head (n : NodeState) (entries : List Peer) :
    (rebuild_successor_list n entries).head? = some n.successor := by
  have h := rebuild_foldl_head n entries [n.successor] (by simp)
  simpa [rebuild_successor_list] using h.1

/-- Helper: a dict write is visible to a subsequent read of the same key. -/
theorem kvGet_kvSet (l : List (String × String)) (k v : String) :
    kvGet (kvSet l k v) k = some v := by
  induction l with
  | nil => simp [kvSet, kvGet]
  | cons kv tl ih =>
      by_cases h : kv.1 = k
      · simp [kvSet, kvGet, h]
      · simp [kvSet, kvGet, h, ih]

/-- C1: for every target id, `find_successor` returns the node's own
descriptor when the node is alone (successor.id = self.id); returns the
successor when the target lies in the circular interval
(self.id, successor.id]; and otherwise forwards the lookup to the closest
preceding peer, returning the RPC reply on success and that same peer when
the synchronous RPC fails or times out. -/
theorem find_successor_spec (n : NodeState) (rpc : Peer → Nat → Option Peer)
    (t : Nat) :
    (n.successor.id = n.id →
       find_successor n rpc t = n.successor
       ∧ (find_successor n rpc t).id = n.id)
  ∧ (n.successor.id ≠ n.id → in_range t n.id n.successor.id true = true →
       find_successor n rpc t = n.successor)
  ∧ (∀ p, n.successor.id ≠ n.id →
       in_range t n.id n.successor.id true = false →
       closest_preceding_node n t = some p →
       ((rpc p t = none → find_successor n rpc t = p)
        ∧ ∀ s, rpc p t = some s → find_successor n rpc t = s)) := by
  refine ⟨?_, ?_, ?_⟩
  · intro h
    have h0 : n.id = n.successor.id := h.symm
    refine ⟨?_, ?_⟩
    · simp [find_successor, if_pos h0]
    · simp [find_successor, if_pos h0, h]
  · intro h hin
    have h0 : ¬ n.id = n.successor.id := fun e => h e.symm
    simp [find_successor, h0, hin]
  · intro p h hin hcpn
    have h0 : ¬ n.id = n.successor.id := fun e => h e.symm
    constructor
    · intro hrpc
      simp [find_successor, h0, hin, hcpn, hrpc]
    · intro s hrpc
      simp [find_successor, h0, hin, hcpn, hrpc]

/-- Witness for C1: the lone-node branch, the direct-interval branch, the
RPC-failure fallback to the closest preceding finger, and the RPC-success
branch, each at a concrete state. -/
theorem find_successor_spec_witness :
    find_successor nodeCollapsed rpcNone 3 = nodeCollapsed.successor
    ∧ find_successor nodeAB rpcNone 15 = nodeAB.successor
    ∧ find_successor nodeF rpcNone 25 = peerX
    ∧ find_successor nodeF rpcPeerB 25 = peerB := by
  refine ⟨?_, ?_, ?_, ?_⟩
  · exact ((find_successor_spec nodeCollapsed rpcNone 3).1 (by decide)).1
  · exact (find_successor_spec nodeAB rpcNone 15).2.1 (by decide) (by decide)
  · exact ((find_successor_spec nodeF rpcNone 25).2.2 peerX (by decide)
      (by decide) (by decide)).1 rfl
  · exact ((find_successor_spec nodeF rpcPeerB 25).2.2 peerX (by decide)
      (by decide) (by decide)).2 peerB rfl

/-- C2: in a stabilize cycle of a node whose successor is not itself, a
received PREDECESSOR reply x with x.id strictly inside the circular
interval (self.id, successor.id) makes x the new successor; no reply leaves
the state unchanged; and in either case a NOTIFY carrying self.id is sent
to the (possibly new) successor. -/
theorem stabilize_spec (n : NodeState) (reply : Option (Option Peer))
    (hne : n.successor.id ≠ n.id) :
    (∀ x, reply = some (some x) →
       in_range x.id n.id n.successor.id false = true →
       (stabilize n reply).1.successor = x)
  ∧ (reply = none → (stabilize n reply).1 = n)
  ∧ ((stabilize n reply).1.successor.addr, Msg.notify n.id)
      ∈ (stabilize n reply).2 := by
  refine ⟨?_, ?_, ?_⟩
  · intro x hr hin
    simp [stabilize, hr, hin]
  · intro hr
    simp [stabilize, hr]
  · simp [stabilize]

/-- Witness for C2: a reply inside the interval moves the successor, and a
missing reply leaves the node unchanged while NOTIFY still goes out. -/
theorem stabilize_spec_witness :
    (stabilize nodeAB (some (some peerX))).1.successor = peerX
    ∧ (stabilize nodeAB none).1 = nodeAB
    ∧ ((stabilize nodeAB none).1.successor.addr, Msg.notify nodeAB.id)
        ∈ (stabilize nodeAB none).2 := by
  refine ⟨?_, ?_, ?_⟩
  · exact (stabilize_spec nodeAB (some (some peerX)) (by decide)).1 peerX rfl
      (by decide)
  · exact (stabilize_spec nodeAB none (by decide)).2.1 rfl
  · exact (stabilize_spec nodeAB none (by decide)).2.2

/-- C6: a stabilize cycle of a node whose successor is itself while a
non-null predecessor with a distinct id is recorded adopts that
predecessor as successor.  The reply argument is exactly what the node's
own GET_PREDECESSOR handler sends back, since the query goes to the
successor, i.e. to the node itself. -/
theorem stabilize_collapsed_spec (n : NodeState) (p : Peer)
    (h1 : n.successor.id = n.id) (h2 : n.predecessor = some p)
    (h3 : p.id ≠ n.id) :
    (stabilize n (some n.predecessor)).1.successor = p := by
  have hin : in_range p.id n.id n.successor.id false = true := by
    rw [h1]
    have hlt : ¬ n.id < n.id := lt_irrefl _
    have hfe : ¬ (false = true) := by decide
    simp only [in_range, if_neg hlt, if_neg hfe, Bool.or_eq_true,
      decide_eq_true_eq]
    exact (lt_or_gt_of_ne h3).symm
  simp [stabilize, h2, hin]

/-- Witness for C6 at a collapsed concrete node. -/
theorem stabilize_collapsed_spec_witness :
    (stabilize nodeCollapsed (some nodeCollapsed.predecessor)).1.successor
      = peerB :=
  stabilize_collapsed_spec nodeCollapsed peerB rfl rfl (by decide)

/-- C3: on an inbound STORE, when the node that `find_successor(hash(key))`
designates is the receiver itself (the code's ownership test), the pair is
written into the primary store and a REPLICATE goes to every successor-list
entry except the first; otherwise the STORE message is forwarded unchanged
to the designated node. -/
theorem store_handler_spec (n : NodeState) (rpc : Peer → Nat → Option Peer)
    (alive : Peer → Bool) (hashf : String → Nat) (now : Nat) (sender : Addr)
    (key value : String) :
    ((find_successor n rpc (hashf key)).id = n.id →
       (handle_message n rpc alive hashf now sender
           (.store key value)).1.data_store = kvSet n.data_store key value
       ∧ kvGet (handle_message n rpc alive hashf now sender
           (.store key value)).1.data_store key = some value
       ∧ (handle_message n rpc alive hashf now sender (.store key value)).2
           = (n.successor_list.drop 1).map
               (fun t => (t.addr, Msg.replicate key value)))
  ∧ ((find_successor n rpc (hashf key)).id ≠ n.id →
       (handle_message n rpc alive hashf now sender (.store key value)).1 = n
       ∧ (handle_message n rpc alive hashf now sender (.store key value)).2
           = [((find_successor n rpc (hashf key)).addr,
               Msg.store key value)]) := by
  constructor
  · intro h
    refine ⟨?_, ?_, ?_⟩ <;> simp [handle_message, h, kvGet_kvSet]
  · intro h
    constructor <;> simp [handle_message, h]

/-- Witness for C3: the owner stores the pair and fans REPLICATE out to the
second and third successor-list entries; a non-owner forwards the STORE. -/
theorem store_handler_spec_witness :
    kvGet (handle_message nodeOwner rpcNone aliveAll hash0 0 ("c", 1)
        (.store "k" "v")).1.data_store "k" = some "v"
    ∧ (handle_message nodeOwner rpcNone aliveAll hash0 0 ("c", 1)
        (.store "k" "v")).2
        = [(peerB.addr, Msg.replicate "k" "v"),
           (peerX.addr, Msg.replicate "k" "v")]
    ∧ (handle_message nodeAB rpcNone aliveAll hash0 0 ("c", 1)
        (.store "k" "v")).2 = [(peerB.addr, Msg.store "k" "v")] := by
  refine ⟨?_, ?_, ?_⟩
  · exact ((store_handler_spec nodeOwner rpcNone aliveAll hash0 0 ("c", 1)
      "k" "v").1 (by decide)).2.1
  · exact (((store_handler_spec nodeOwner rpcNone aliveAll hash0 0 ("c", 1)
      "k" "v").1 (by decide)).2.2).trans (by decide)
  · exact (((store_handler_spec nodeAB rpcNone aliveAll hash0 0 ("c", 1)
      "k" "v").2 (by decide)).2).trans (by decide)

/-- C5: a GET_SUCCESSOR_LIST datagram makes the node prune its successor
list (spec-modelled pruning, the method is absent from src/chord.py) and
reply to the requester with a SUCCESSOR_LIST carrying exactly the pruned
sequence. -/
theorem get_successor_list_spec (n : NodeState)
    (rpc : Peer → Nat → Option Peer) (alive : Peer → Bool)
    (hashf : String → Nat) (now : Nat) (sender : Addr) :
    handle_message n rpc alive hashf now sender .get_successor_list
      = ({ n with successor_list := prune_successor_list n alive },
         [(sender, Msg.successor_list (prune_successor_list n alive))]) :=
  rfl

/-- C7 (a code bug): `Node.handle_message` has no branch for the
UPDATE_FINGER command that `Chord.update_others` emits, so the datagram is
dropped with no state change and no outgoing message; the claimed
finger-table update and predecessor propagation
(`Chord.update_finger_table_entry`) are dead code. -/
theorem update_finger_dropped (n : NodeState)
    (rpc : Peer → Nat → Option Peer) (alive : Peer → Bool)
    (hashf : String → Nat) (now : Nat) (sender : Addr) (p : Peer)
    (i : Nat) :
    handle_message n rpc alive hashf now sender (.update_finger p i)
      = (n, []) :=
  rfl

/-- Helper: the finger scan returns `none` when no entry qualifies. -/
theorem cpn_scan_none (selfId t : Nat) (l : List (Option Peer))
    (h : ∀ f ∈ l, ∀ p, f = some p → in_range p.id selfId t false = false) :
    cpn_scan selfId t l = none := by
  induction l with
  | nil => rfl
  | cons f rest ih =>
      have hrest : ∀ g ∈ rest, ∀ p, g = some p →
          in_range p.id selfId t false = false :=
        fun g hg p hp => h g (List.mem_cons_of_mem _ hg) p hp
      cases f with
      | none => simpa [cpn_scan] using ih hrest
      | some p =>
          have hp := h (some p) (List.mem_cons_self _ _) p rfl
          simpa [cpn_scan, hp] using ih hrest

/-- Helper: a `some` result of the finger scan is a qualifying entry and is
the first such entry in scan order. -/
theorem cpn_scan_some (selfId t : Nat) (l : List (Option Peer)) :
    ∀ p, cpn_scan selfId t l = some p →
      in_range p.id selfId t false = true
      ∧ ∃ l1 l2, l = l1 ++ some p :: l2
          ∧ ∀ q ∈ l1, ∀ x, q = some x →
              in_range x.id selfId t false = false := by
  induction l with
  | nil => intro p h; cases h
  | cons f rest ih =>
      intro p h
      cases f with
      | none =>
          have h2 : cpn_scan selfId t rest = some p := by
            simpa [cpn_scan] using h
          obtain ⟨hin, l1, l2, heq, hall⟩ := ih p h2
          refine ⟨hin, none :: l1, l2, by simp [heq], ?_⟩
          intro q hq x hqx
          rcases List.mem_cons.mp hq with h3 | h3
          · rw [h3] at hqx; cases hqx
          · exact hall q h3 x hqx
      | some c =>
          by_cases hc : in_range c.id selfId t false = true
          · have hcp : some c = some p := by simpa [cpn_scan, hc] using h
            obtain rfl := Option.some.inj hcp
            refine ⟨hc, [], rest, rfl, ?_⟩
            intro q hq; cases hq
          · have hcf : in_range c.id selfId t false = false :=
              Bool.eq_false_iff.mpr (fun hb => hc hb)
            have h2 : cpn_scan selfId t rest = some p := by
              simpa [cpn_scan, hcf] using h
            obtain ⟨hin, l1, l2, heq, hall⟩ := ih p h2
            refine ⟨hin, some c :: l1, l2, by simp [heq], ?_⟩
            intro q hq x hqx
            rcases List.mem_cons.mp hq with h3 | h3
            · rw [h3] at hqx
              obtain rfl := Option.some.inj hqx
              exact hcf
            · exact hall q h3 x hqx

/-- C4 counterexample: at `nodeAB` with target 15 no finger qualifies (the
table is all `None`), yet `closest_preceding_node` returns `None`, not the
node's own descriptor as the claim states. -/
theorem closest_preceding_node_counterexample :
    (∀ f ∈ nodeAB.finger_table, f = none)
    ∧ closest_preceding_node nodeAB 15 = none
    ∧ closest_preceding_node nodeAB 15 ≠ some nodeAB.selfPeer := by
  refine ⟨?_, ?_, ?_⟩ <;> decide

/-- C4 as amended: `closest_preceding_node` scans the finger table from the
highest index downward and returns the first finger whose id lies strictly
between self.id and the target on the ring; when no finger qualifies it
returns `None` rather than self, and its caller `find_successor` then
substitutes the node's current successor as the forwarding candidate
(returning it directly when the RPC to it fails). -/
theorem closest_preceding_node_amended (n : NodeState) (t : Nat) :
    ((∀ f ∈ n.finger_table, ∀ p, f = some p →
        in_range p.id n.id t false = false) →
       closest_preceding_node n t = none)
  ∧ (∀ p, closest_preceding_node n t = some p →
       in_range p.id n.id t false = true
       ∧ ∃ l1 l2, n.finger_table.reverse = l1 ++ some p :: l2
           ∧ ∀ q ∈ l1, ∀ x, q = some x →
               in_range x.id n.id t false = false)
  ∧ (∀ rpc : Peer → Nat → Option Peer,
       n.successor.id ≠ n.id → in_range t n.id n.successor.id true = false →
       closest_preceding_node n t = none → rpc n.successor t = none →
       find_successor n rpc t = n.successor) := by
  refine ⟨?_, ?_, ?_⟩
  · intro h
    exact cpn_scan_none n.id t n.finger_table.reverse
      (fun f hf p hp => h f (List.mem_reverse.mp hf) p hp)
  · intro p hp
    exact cpn_scan_some n.id t n.finger_table.reverse p hp
  · intro rpc hne hin hcpn hrpc
    have h0 : ¬ n.id = n.successor.id := fun e => hne e.symm
    simp [find_successor, h0, hin, hcpn, hrpc]

/-- Witness for C4's amended statement: the none-case at `nodeAB`, the
first-qualifying-finger case at `nodeF`, and the caller's substitution of
the successor on RPC failure. -/
theorem closest_preceding_node_amended_witness :
    closest_preceding_node nodeAB 15 = none
    ∧ in_range peerX.id nodeF.id 25 false = true
    ∧ find_successor nodeAB rpcNone 25 = nodeAB.successor := by
  refine ⟨?_, ?_, ?_⟩
  · exact (closest_preceding_node_amended nodeAB 15).1 (by decide)
  · exact ((closest_preceding_node_amended nodeF 25).2.1 peerX (by decide)).1
  · exact (closest_preceding_node_amended nodeAB 25).2.2 rpcNone (by decide)
      (by decide) (by decide) rfl

/-- C8 counterexample: `Chord.stabilize`'s adoption of the successor's
predecessor overwrites the successor pointer without touching the
successor list, so immediately afterwards `successor_list[0]` still holds
the old successor and differs from `successor`. -/
theorem successor_list_mirror_counterexample :
    (stabilize nodeAB (some (some peerX))).1.successor = peerX
    ∧ (stabilize nodeAB (some (some peerX))).1.successor_list.head?
        = some peerB
    ∧ (stabilize nodeAB (some (some peerX))).1.successor_list.head?
        ≠ some (stabilize nodeAB (some (some peerX))).1.successor := by
  refine ⟨?_, ?_, ?_⟩ <;> decide

/-- C8 as amended: `successor_list[0]` equals `successor` after node
construction, after SUCCESSOR reply handling, after UPDATE_SUCCESSOR_TO
handling (on the always non-empty successor list) and after a
SUCCESSOR_LIST rebuild; the stabilize adoption of the successor's
predecessor, however, overwrites `successor` without syncing
`successor_list[0]`, which keeps the old successor until the next
successor-list rebuild. -/
theorem successor_list_mirror_amended (ip : String) (port idv mv rv : Nat)
    (n : NodeState) (rpc : Peer → Nat → Option Peer) (alive : Peer → Bool)
    (hashf : String → Nat) (now : Nat) (sender : Addr) (p : Peer)
    (entries : List Peer) :
    ((node_init ip port idv mv rv).successor_list.head?
       = some (node_init ip port idv mv rv).successor)
  ∧ ((handle_message n rpc alive hashf now sender
        (.successor p)).1.successor_list.head?
       = some (handle_message n rpc alive hashf now sender
           (.successor p)).1.successor)
  ∧ (n.successor_list ≠ [] →
       (handle_message n rpc alive hashf now sender
           (.update_successor_to p)).1.successor_list.head?
         = some (handle_message n rpc alive hashf now sender
             (.update_successor_to p)).1.successor)
  ∧ (entries ≠ [] →
       (handle_message n rpc alive hashf now sender
           (.successor_list entries)).1.successor_list.head?
         = some (handle_message n rpc alive hashf now sender
             (.successor_list entries)).1.successor) := by
  refine ⟨rfl, ?_, ?_, ?_⟩
  · simp only [handle_message]
    rw [(update_finger_table_preserves _ rpc).1,
        (update_finger_table_preserves _ rpc).2]
    cases n.successor_list <;> rfl
  · intro hsl
    cases h : n.successor_list with
    | nil => exact absurd h hsl
    | cons a tl => simp [handle_message, h]
  · intro hent
    have hne : entries.isEmpty = false := by
      cases entries with
      | nil => exact absurd rfl hent
      | cons a tl => rfl
    simp [handle_message, hne, rebuild_successor_list_head]

/-- Witness for C8's amended invariant at concrete states. -/
theorem successor_list_mirror_amended_witness :
    ((node_init ("127.0.0.1") 5000 10 3 3).successor_list.head?
       = some (node_init ("127.0.0.1") 5000 10 3 3).successor)
    ∧ ((handle_message nodeAB rpcNone aliveAll hash0 0 ("c", 1)
          (.successor peerX)).1.successor_list.head?
       = some (handle_message nodeAB rpcNone aliveAll hash0 0 ("c", 1)
           (.successor peerX)).1.successor)
    ∧ ((handle_message nodeAB rpcNone aliveAll hash0 0 ("c", 1)
          (.update_successor_to peerX)).1.successor_list.head?
       = some (handle_message nodeAB rpcNone aliveAll hash0 0 ("c", 1)
           (.update_successor_to peerX)).1.successor)
    ∧ ((handle_message nodeAB rpcNone aliveAll hash0 0 ("c", 1)
          (.successor_list [peerX])).1.successor_list.head?
       = some (handle_message nodeAB rpcNone aliveAll hash0 0 ("c", 1)
           (.successor_list [peerX])).1.successor) := by
  refine ⟨?_, ?_, ?_, ?_⟩
  · exact (successor_list_mirror_amended ("127.0.0.1") 5000 10 3 3 nodeAB
      rpcNone aliveAll hash0 0 ("c", 1) peerX []).1
  · exact (successor_list_mirror_amended ("127.0.0.1") 5000 10 3 3 nodeAB
      rpcNone aliveAll hash0 0 ("c", 1) peerX []).2.1
  · exact (successor_list_mirror_amended ("127.0.0.1") 5000 10 3 3 nodeAB
      rpcNone aliveAll hash0 0 ("c", 1) peerX []).2.2.1 (by decide)
  · exact (successor_list_mirror_amended ("127.0.0.1") 5000 10 3 3 nodeAB
      rpcNone aliveAll hash0 0 ("c", 1) peerX [peerX]).2.2.2 (by decide)

/-- C10: when the successor is a distinct peer but the predecessor is null,
`Node.leave` raises while formatting the UPDATE_PREDECESSOR_TO message: it
sends no neighbor-update datagram, does not set the stop event of the
maintenance loops and does not close the socket. -/
theorem leave_null_predecessor_spec (n : NodeState)
    (h1 : n.successor.id ≠ n.id) (h2 : n.predecessor = none) :
    (leave n).error.isSome = true
    ∧ (∀ pkt ∈ (leave n).outbox, pkt.2.isNeighborUpdate = false)
    ∧ (leave n).stopped = false
    ∧ (leave n).closed = false := by
  have hL : leave n =
      { outbox :=
          n.data_store.map
            (fun kv => (n.successor.addr, Msg.store kv.1 kv.2))
          ++ n.replica_store.map
              (fun kv => (n.successor.addr, Msg.replicate kv.1 kv.2)),
        stopped := false, closed := false,
        error :=
          some ("TypeError: NoneType object is not subscriptable") } := by
    simp [leave, h1, h2]
  rw [hL]
  refine ⟨rfl, ?_, rfl, rfl⟩
  intro pkt hpkt
  rcases List.mem_append.mp hpkt with h | h
  · rcases List.mem_map.mp h with ⟨kv, _, rfl⟩
    rfl
  · rcases List.mem_map.mp h with ⟨kv, _, rfl⟩
    rfl

/-- Witness for C10 at a node with a distinct successor, one stored key and
a null predecessor. -/
theorem leave_null_predecessor_spec_witness :
    (leave nodeData).error.isSome = true
    ∧ (leave nodeData).stopped = false
    ∧ (leave nodeData).closed = false := by
  refine ⟨?_, ?_, ?_⟩
  · exact (leave_null_predecessor_spec nodeData (by decide) rfl).1
  · exact (leave_null_predecessor_spec nodeData (by decide) rfl).2.2.1
  · exact (leave_null_predecessor_spec nodeData (by decide) rfl).2.2.2

end ChordDHT
